import Mathlib

/-!
Verification of the grpcurl-MCP bridge (`main.go`).

The repository exposes three MCP tools (`invoke`, `list`, `describe`)
that bridge to a gRPC server via reflection.  The tool handlers of
`registerTools` are shallowly embedded below.  External collaborators
(the gRPC transport, the reflection client, the grpcurl library's
`InvokeRPC`/`GetDescriptorText`/JSON machinery) are supplied as oracle
fields of an environment record; everything the handler itself does —
argument extraction, header formatting, control flow, error strings,
the order of the dial relative to the various checks — is transcribed
from the source.  Each handler additionally returns the list of network
effects it performed (dial, RPC, reflection lookups), so claims about
"no network I/O" become statements about that trace.
-/

set_option maxHeartbeats 1000000

namespace GrpcurlMcp

/-- The MCP `CallToolResult`: a list of text contents plus an error flag
(`mcp.CallToolResult` with `mcp.NewTextContent` items). -/
structure CallToolResult where
  content : List String
  isError : Bool
deriving DecidableEq, Repr

/-- `toolSuccess` from the source: wraps the given text contents in a
non-error result. -/
def toolSuccess (contents : List String) : CallToolResult :=
  { content := contents, isError := false }

/-- `toolError` from the source: wraps a single message in an error result. -/
def toolError (message : String) : CallToolResult :=
  { content := [message], isError := true }

/-- A dynamically-typed Go value as found in the MCP argument map
(`map[string]interface{}`).  The handlers only ever distinguish strings,
arrays, and everything else. -/
inductive GoVal
  | str (s : String)
  | arr (elems : List GoVal)
  | other

/-- Lookup in the argument map `request.Params.Arguments`. -/
def lookupArg (args : List (String × GoVal)) (key : String) : Option GoVal :=
  (args.find? (fun kv => kv.1 = key)).map (fun kv => kv.2)

/-- Go's comma-ok type assertion `args[k].(string)` with the ok flag
discarded: yields the string if present, and `""` otherwise. -/
def asString : Option GoVal → String
  | some (GoVal.str s) => s
  | _ => ""

/-- The string value of argument `key`, exactly as `args[key].(string)`
with `_` for the ok flag produces it. -/
def strArg (args : List (String × GoVal)) (key : String) : String :=
  asString (lookupArg args key)

/-- One observable network interaction performed by a handler. -/
inductive Effect
  | dial
  | rpc (method : String) (headers : List String) (requestData : String)
  | listServices
  | findSymbol (symbol : String)
deriving DecidableEq, Repr

/-- What a handler returns to the MCP dispatcher: the network-effect
trace, the `*mcp.CallToolResult`, and the Go `error` return value. -/
structure HandlerOut where
  trace : List Effect
  result : CallToolResult
  goErr : Option String
deriving DecidableEq, Repr

/-! ### The invoke handler -/

/-- `fmt.Sprintf("%s: %s", k, v)` applied to one header pair. -/
def formatHeader (kv : String × String) : String :=
  kv.1 ++ ": " ++ kv.2

/-- The one-shot request supplier from the source
(`singleMessageSupplier`): holds the raw JSON payload and a used flag. -/
structure singleMessageSupplier where
  data : String
  used : Bool
deriving DecidableEq, Repr

/-- The error returned by `Supply`: either `io.EOF` (supplier already
consumed) or a `jsonpb.Unmarshal` decode failure. -/
inductive SupplyError
  | eof
  | decode (msg : String)
deriving DecidableEq, Repr

/-- `singleMessageSupplier.Supply` from the source: return `io.EOF` if
already used, otherwise mark used and attempt to unmarshal the stored
payload (`jsonpb.Unmarshal` is the oracle `unmarshal`).  Returns the
call's outcome together with the supplier's new state. -/
def singleMessageSupplier.Supply (s : singleMessageSupplier)
    (unmarshal : String → Except String Unit) :
    Except SupplyError Unit × singleMessageSupplier :=
  if s.used then
    (Except.error SupplyError.eof, s)
  else
    (match unmarshal s.data with
      | Except.ok _ => Except.ok ()
      | Except.error e => Except.error (SupplyError.decode e),
     { s with used := true })

/-- Outcomes of `n` successive `Supply` calls on the same supplier. -/
def supplyRun (s : singleMessageSupplier)
    (unmarshal : String → Except String Unit) : Nat → List (Except SupplyError Unit)
  | 0 => []
  | n + 1 =>
    let step := s.Supply unmarshal
    step.1 :: supplyRun step.2 unmarshal n

/-- Environment of external collaborators for one `invoke` call:
`json.Unmarshal` on the headers JSON, `grpcurl.BlockingDial`,
`grpcurl.RequestParserAndFormatter`, and the outcome of
`grpcurl.InvokeRPC` (formatted responses written to the output buffer
by the `DefaultEventHandler`, the error returned by `InvokeRPC`, and
the non-OK terminal status error recorded in `handler.Status`). -/
structure InvokeEnv where
  parseHeaders : String → Except String (List (String × String))
  dial : Except String Unit
  formatter : Except String Unit
  responses : List String
  invokeErr : Option String
  statusErr : Option String

/-- The output buffer after the event handler has `Fprintln`-ed each
formatted response: every response followed by a newline, in arrival
order. -/
def outBuffer (responses : List String) : String :=
  String.join (responses.map (fun r => r ++ "\n"))

/-- The invoke handler from the point after header parsing: dial,
create the formatter, build the one-shot supplier, run `InvokeRPC`,
check `handler.Status`, and return the buffer on success.  Transcribed
from the source's control flow and error strings. -/
def invokeWithHeaders (env : InvokeEnv) (method reqPayload : String)
    (headers : List String) : HandlerOut :=
  match env.dial with
  | Except.error e =>
    { trace := [Effect.dial],
      result := toolError ("Failed to create gRPC connection: " ++ e),
      goErr := none }
  | Except.ok _ =>
    match env.formatter with
    | Except.error e =>
      { trace := [Effect.dial],
        result := toolError ("Failed to create formatter: " ++ e),
        goErr := none }
    | Except.ok _ =>
      let reqSupplier : singleMessageSupplier := { data := reqPayload, used := false }
      let tr := [Effect.dial, Effect.rpc method headers reqSupplier.data]
      match env.invokeErr with
      | some e =>
        { trace := tr,
          result := toolError ("Failed to invoke RPC: " ++ e),
          goErr := none }
      | none =>
        match env.statusErr with
        | some e =>
          { trace := tr,
            result := toolError ("RPC failed: " ++ e),
            goErr := none }
        | none =>
          { trace := tr,
            result := toolSuccess [outBuffer env.responses],
            goErr := none }

/-- The full `invoke` tool handler: extract `method`, `request`,
`headers` via comma-ok string assertions, parse the headers JSON when
non-empty (formatting each pair as `k: v`), then proceed to the dial
and RPC stages. -/
def invokeHandler (env : InvokeEnv) (args : List (String × GoVal)) : HandlerOut :=
  let method := strArg args "method"
  let reqPayload := strArg args "request"
  let headersJSON := strArg args "headers"
  if headersJSON = "" then
    invokeWithHeaders env method reqPayload []
  else
    match env.parseHeaders headersJSON with
    | Except.error e =>
      { trace := [],
        result := toolError ("Failed to parse headers JSON: " ++ e),
        goErr := none }
    | Except.ok pairs =>
      invokeWithHeaders env method reqPayload (pairs.map formatHeader)

/-! ### The list handler -/

/-- The name the list handler filters out of the service listing. -/
def reflectionServiceName : String :=
  "grpc.reflection.v1alpha.ServerReflection"

/-- Environment for one `list` call: the dial outcome and the outcome
of `refClient.ListServices()`. -/
structure ListEnv where
  dial : Except String Unit
  listServices : Except String (List String)

/-- The output accumulation loop of the list handler: a
`strings.Builder` that appends `svc` and `"\n"` for every service
other than the reflection service. -/
def listOutput (services : List String) : String :=
  services.foldl
    (fun acc svc => if svc ≠ reflectionServiceName then acc ++ svc ++ "\n" else acc) ""

/-- The `list` tool handler: dial, list services via reflection, and
return the newline-terminated names excluding the reflection service. -/
def listHandler (env : ListEnv) : HandlerOut :=
  match env.dial with
  | Except.error e =>
    { trace := [Effect.dial],
      result := toolError ("Failed to create gRPC connection: " ++ e),
      goErr := none }
  | Except.ok _ =>
    match env.listServices with
    | Except.error e =>
      { trace := [Effect.dial, Effect.listServices],
        result := toolError ("Failed to list services: " ++ e),
        goErr := none }
    | Except.ok services =>
      { trace := [Effect.dial, Effect.listServices],
        result := toolSuccess [listOutput services],
        goErr := none }

/-! ### The describe handler -/

/-- The protoreflect descriptor shapes the describe handler's type
switch distinguishes.  For a message descriptor, the source scans the
parent message's fields for a map field whose entry type is this
message (`IsMapEntry` branch) or a group field of this type; the
matching field descriptor, when one exists, is stored here as the
redirect target. -/
inductive Desc
  | message (fqn : String) (mapFieldOwner : Option Desc) (groupFieldOwner : Option Desc)
  | field (fqn : String) (isGroup : Bool) (isExtension : Bool)
  | oneOf (fqn : String)
  | enum (fqn : String)
  | enumValue (fqn : String)
  | service (fqn : String)
  | method (fqn : String)
  | unrecognized (typeName : String)

/-- `GetFullyQualifiedName` of a descriptor. -/
def Desc.fqn : Desc → String
  | Desc.message s _ _ => s
  | Desc.field s _ _ => s
  | Desc.oneOf s => s
  | Desc.enum s => s
  | Desc.enumValue s => s
  | Desc.service s => s
  | Desc.method s => s
  | Desc.unrecognized s => s

/-- The describe handler's type switch: yields the element-type phrase
and the (possibly redirected) descriptor whose text is printed, or the
`unrecognized type` error message. -/
def classify (d : Desc) : Except String (String × Desc) :=
  match d with
  | Desc.message _ (some f) _ => Except.ok ("the entry type for a map field", f)
  | Desc.message _ none (some f) => Except.ok ("the type of a group field", f)
  | Desc.message _ none none => Except.ok ("a message", d)
  | Desc.field _ true _ => Except.ok ("a group field", d)
  | Desc.field _ false true => Except.ok ("an extension", d)
  | Desc.field _ false false => Except.ok ("a field", d)
  | Desc.oneOf _ => Except.ok ("a one-of", d)
  | Desc.enum _ => Except.ok ("an enum", d)
  | Desc.enumValue _ => Except.ok ("an enum value", d)
  | Desc.service _ => Except.ok ("a service", d)
  | Desc.method _ => Except.ok ("a method", d)
  | Desc.unrecognized t => Except.error ("descriptor has unrecognized type " ++ t)

/-- Strip a single leading `'.'` from an entity name, as the describe
handler does before `FindSymbol` (`entityStr != "" && entityStr[0] == '.'`). -/
def stripDot (s : String) : String :=
  if s.data.head? = some '.' then String.mk s.data.tail else s

/-- Environment for one `describe` call: the dial outcome, the
descriptor source's `FindSymbol`, and grpcurl's `GetDescriptorText`. -/
structure DescribeEnv where
  dial : Except String Unit
  findSymbol : String → Except String Desc
  getDescriptorText : Desc → Except String String

/-- Go's `%q` formatting of an `interface{}` value, used by the
describe handler's error messages; only the string case matters to the
handler (non-string cases print Go's verb-mismatch notice, abstracted
here). -/
def quoteGoVal : GoVal → String
  | GoVal.str s => "\"" ++ s ++ "\""
  | _ => "%!q"

/-- The body of the describe loop for one entity: strip a leading dot,
resolve the symbol, classify the descriptor, and fetch its text;
failures carry the exact error result the handler returns. -/
def describeStep (env : DescribeEnv) (entity : String) : Except CallToolResult String :=
  match env.findSymbol (stripDot entity) with
  | Except.error err =>
    Except.error (toolError ("Failed to resolve symbol \"" ++ stripDot entity ++ "\": " ++ err))
  | Except.ok d =>
    match classify d with
    | Except.error msg => Except.error (toolError msg)
    | Except.ok et =>
      match env.getDescriptorText et.2 with
      | Except.error err =>
        Except.error (toolError ("Failed to describe symbol \"" ++ stripDot entity ++ "\": " ++ err))
      | Except.ok txt =>
        Except.ok (d.fqn ++ " is " ++ et.1 ++ ":\n" ++ txt)

/-- The describe loop over the entity list, accumulating the
`FindSymbol` trace and the per-entity descriptions; the first failing
entity aborts the loop with its error result, and a fully successful
pass joins the descriptions with blank lines. -/
def describeGo (env : DescribeEnv) :
    List String → List Effect → List String → List Effect × CallToolResult
  | [], tr, results =>
    (tr, toolSuccess [String.intercalate "\n\n" results])
  | e :: rest, tr, results =>
    match describeStep env e with
    | Except.error r => (tr ++ [Effect.findSymbol (stripDot e)], r)
    | Except.ok description =>
      describeGo env rest (tr ++ [Effect.findSymbol (stripDot e)]) (results ++ [description])

/-- The describe loop started on the resolved entity list. -/
def describeEntities (env : DescribeEnv) (entities : List String) :
    List Effect × CallToolResult :=
  describeGo env entities [] []

/-- Extraction of the `entities` argument: a string value is split on
commas; an array value must consist of strings (a non-string element
yields the handler's resolve-error message with the nil dial error);
anything else leaves the list empty. -/
def extractFromArr : List GoVal → Except CallToolResult (List String)
  | [] => Except.ok []
  | GoVal.str s :: rest => (extractFromArr rest).map (fun l => s :: l)
  | v :: _ =>
    Except.error (toolError ("Failed to resolve symbol " ++ quoteGoVal v ++ ": <nil>"))

/-- Extraction of the `entities` argument from the argument map. -/
def extractEntities (args : List (String × GoVal)) : Except CallToolResult (List String) :=
  match lookupArg args "entities" with
  | some (GoVal.str s) => Except.ok (s.splitOn ",")
  | some (GoVal.arr xs) => extractFromArr xs
  | _ => Except.ok []

/-- The `describe` tool handler: dial first, then extract the entity
list, reject an empty list with `No entities provided`, and run the
describe loop. -/
def describeHandler (env : DescribeEnv) (args : List (String × GoVal)) : HandlerOut :=
  match env.dial with
  | Except.error e =>
    { trace := [Effect.dial],
      result := toolError ("Failed to create gRPC connection: " ++ e),
      goErr := none }
  | Except.ok _ =>
    match extractEntities args with
    | Except.error r =>
      { trace := [Effect.dial], result := r, goErr := none }
    | Except.ok tmp =>
      if tmp = [] then
        { trace := [Effect.dial], result := toolError "No entities provided", goErr := none }
      else
        let out := describeEntities env tmp
        { trace := Effect.dial :: out.1, result := out.2, goErr := none }

/-- Whether a `Supply` outcome produced a request message. -/
def producedMessage : Except SupplyError Unit → Bool
  | Except.ok _ => true
  | Except.error _ => false

/-- The environment of the C1 counterexample: the RPC produced three
rendered responses and then a non-OK terminal status. -/
def statusErrEnv : InvokeEnv :=
  { parseHeaders := fun _ => Except.error "unused",
    dial := Except.ok (), formatter := Except.ok (),
    responses := ["A", "B", "C"],
    invokeErr := none,
    statusErr := some "boom" }

/-- One name per line, each followed by a newline. -/
def renderLines : List String → String
  | [] => ""
  | s :: rest => s ++ "\n" ++ renderLines rest

/-- A result is well formed when it is exactly a `toolSuccess` or a
`toolError` envelope. -/
def WellFormed (r : CallToolResult) : Prop :=
  (∃ cs, r = toolSuccess cs) ∨ (∃ m, r = toolError m)

/-- The environment of the C6 witness: `a.A` resolves to a service,
`bad.B` fails to resolve. -/
def c6Env : DescribeEnv :=
  { dial := Except.ok (),
    findSymbol := fun s =>
      if s = "a.A" then Except.ok (Desc.service "a.A")
      else Except.error "Symbol not found",
    getDescriptorText := fun _ => Except.ok "service A \x7b\x7d" }

/-! ### Helper lemmas -/

theorem strAppendAssoc (a b c : String) : a ++ b ++ c = a ++ (b ++ c) :=
  String.ext (by simp)

theorem strAppendEmpty (a : String) : a ++ "" = a :=
  String.ext (by simp)

theorem asString_eq_empty (o : Option GoVal) (h : ∀ s, o ≠ some (GoVal.str s)) :
    asString o = "" := by
  match o with
  | none => rfl
  | some (GoVal.str s) => exact absurd rfl (h s)
  | some (GoVal.arr xs) => rfl
  | some GoVal.other => rfl

/-- Every branch of the post-header invoke path starts by dialing. -/
theorem invokeWithHeaders_dial_first (env : InvokeEnv) (m r : String) (hs : List String) :
    (invokeWithHeaders env m r hs).trace.head? = some Effect.dial := by
  unfold invokeWithHeaders
  cases env.dial with
  | error e => rfl
  | ok u =>
    cases env.formatter with
    | error e => rfl
    | ok u' =>
      cases env.invokeErr with
      | some e => rfl
      | none => cases env.statusErr with
        | some e => rfl
        | none => rfl

/-- The describe loop only ever extends the trace accumulator. -/
theorem describeGo_trace_extends (env : DescribeEnv) (l : List String)
    (tr : List Effect) (res : List String) :
    ∃ t, (describeGo env l tr res).1 = tr ++ t := by
  induction l generalizing tr res with
  | nil => exact ⟨[], by simp [describeGo]⟩
  | cons e rest ih =>
    unfold describeGo
    cases hstep : describeStep env e with
    | error r => exact ⟨[Effect.findSymbol (stripDot e)], by simp⟩
    | ok d =>
      obtain ⟨t, ht⟩ := ih (tr ++ [Effect.findSymbol (stripDot e)]) (res ++ [d])
      exact ⟨[Effect.findSymbol (stripDot e)] ++ t, by simp [ht]⟩

/-- The first trace entry of a nonempty describe loop is the lookup of
the first entity's stripped name. -/
theorem describeEntities_head (env : DescribeEnv) (e : String) (rest : List String) :
    (describeEntities env (e :: rest)).1.head? = some (Effect.findSymbol (stripDot e)) := by
  unfold describeEntities describeGo
  cases hstep : describeStep env e with
  | error r => rfl
  | ok d =>
    obtain ⟨t, ht⟩ := describeGo_trace_extends env rest
      ([] ++ [Effect.findSymbol (stripDot e)]) ([] ++ [d])
    simp at ht
    simp [ht]

/-! ### Claim theorems -/


/-- Claim C5: the first `Supply` call on an unconsumed supplier attempts
to decode the stored JSON payload (its outcome is exactly the outcome of
unmarshalling the stored data) and consumes the supplier; every
subsequent `Supply` call returns `io.EOF`; hence a run of any length
produces at most one request message. -/
theorem supplier_one_shot (data : String) (unmarshal : String → Except String Unit) (n : Nat) :
    (singleMessageSupplier.Supply ⟨data, false⟩ unmarshal).2 =
      { data := data, used := true } ∧
    (∀ d : String, singleMessageSupplier.Supply ⟨d, true⟩ unmarshal =
      (Except.error SupplyError.eof, ⟨d, true⟩)) ∧
    supplyRun ⟨data, false⟩ unmarshal (n + 1) =
      (match unmarshal data with
        | Except.ok _ => Except.ok ()
        | Except.error e => Except.error (SupplyError.decode e)) ::
        List.replicate n (Except.error SupplyError.eof) ∧
    (supplyRun ⟨data, false⟩ unmarshal (n + 1)).countP producedMessage ≤ 1 := by
  have hused : ∀ (d : String) (k : Nat), supplyRun ⟨d, true⟩ unmarshal k =
      List.replicate k (Except.error SupplyError.eof) := by
    intro d k
    induction k with
    | zero => rfl
    | succ k ih => simp [supplyRun, singleMessageSupplier.Supply, ih, List.replicate_succ]
  have hrun : supplyRun ⟨data, false⟩ unmarshal (n + 1) =
      (match unmarshal data with
        | Except.ok _ => Except.ok ()
        | Except.error e => Except.error (SupplyError.decode e)) ::
        List.replicate n (Except.error SupplyError.eof) := by
    simp [supplyRun, singleMessageSupplier.Supply, hused]
  refine ⟨by simp [singleMessageSupplier.Supply], fun d => by simp [singleMessageSupplier.Supply], hrun, ?_⟩
  rw [hrun, List.countP_cons]
  have hrep : (List.replicate n (Except.error SupplyError.eof :
      Except SupplyError Unit)).countP producedMessage = 0 := by
    simp [List.countP_eq_zero, producedMessage]
  rw [hrep]
  cases unmarshal data with
  | ok u => simp [producedMessage]
  | error e => simp [producedMessage]

/-- Claim C7: with a well-formed headers JSON object, the invoke
handler builds the call-metadata list by mapping each key-value pair to
the single entry `k ++ ": " ++ v` (verbatim concatenation, no further
escaping), and that exact list is what reaches the RPC invocation. -/
theorem invoke_header_metadata (env : InvokeEnv) (args : List (String × GoVal))
    (pairs : List (String × String))
    (hne : strArg args "headers" ≠ "")
    (hp : env.parseHeaders (strArg args "headers") = Except.ok pairs) :
    invokeHandler env args =
      invokeWithHeaders env (strArg args "method") (strArg args "request")
        (pairs.map (fun kv => kv.1 ++ ": " ++ kv.2)) ∧
    (pairs.map (fun kv => kv.1 ++ ": " ++ kv.2)).length = pairs.length ∧
    (∀ k v, (k, v) ∈ pairs →
      (k ++ ": " ++ v) ∈ pairs.map (fun kv => kv.1 ++ ": " ++ kv.2)) ∧
    (env.dial = Except.ok () → env.formatter = Except.ok () →
      (invokeHandler env args).trace =
        [Effect.dial,
         Effect.rpc (strArg args "method")
           (pairs.map (fun kv => kv.1 ++ ": " ++ kv.2)) (strArg args "request")]) := by
  have hmap : pairs.map formatHeader = pairs.map (fun kv => kv.1 ++ ": " ++ kv.2) := rfl
  have heq : invokeHandler env args =
      invokeWithHeaders env (strArg args "method") (strArg args "request")
        (pairs.map (fun kv => kv.1 ++ ": " ++ kv.2)) := by
    unfold invokeHandler
    rw [if_neg hne, hp]
    rfl
  refine ⟨heq, by simp, ?_, ?_⟩
  · intro k v hkv
    exact List.mem_map.mpr ⟨(k, v), hkv, rfl⟩
  · intro hd hf
    rw [heq]
    unfold invokeWithHeaders
    rw [hd, hf]
    cases env.invokeErr with
    | some e => rfl
    | none => cases env.statusErr with
      | some e => rfl
      | none => rfl

/-- Witness for C7 at the spec's example header object
`{"Authorization":"Bearer X"}`. -/
theorem invoke_header_metadata_witness :
    (strArg [("headers", GoVal.str "hjson")] "headers" ≠ "" ∧
     InvokeEnv.parseHeaders
       { parseHeaders := fun _ => Except.ok [("Authorization", "Bearer X")],
         dial := Except.ok (), formatter := Except.ok (),
         responses := [], invokeErr := none, statusErr := none }
       (strArg [("headers", GoVal.str "hjson")] "headers") =
       Except.ok [("Authorization", "Bearer X")]) ∧
    ([("Authorization", "Bearer X")].map (fun kv => kv.1 ++ ": " ++ kv.2) =
      ["Authorization: Bearer X"] ∧
     (∀ k v, (k, v) ∈ [("Authorization", "Bearer X")] →
      (k ++ ": " ++ v) ∈ [("Authorization", "Bearer X")].map
        (fun kv => kv.1 ++ ": " ++ kv.2))) := by
  refine ⟨⟨by decide, rfl⟩, by decide,
    (invoke_header_metadata
      { parseHeaders := fun _ => Except.ok [("Authorization", "Bearer X")],
        dial := Except.ok (), formatter := Except.ok (),
        responses := [], invokeErr := none, statusErr := none }
      [("headers", GoVal.str "hjson")]
      [("Authorization", "Bearer X")] (by decide) rfl).2.2.1⟩

/-- Claim C8: the describe handler strips exactly one leading dot from
an entity name before `FindSymbol`: a dotted form `"." ++ s` and the
bare form `s` are looked up under the same name `s`, a name without a
leading dot is looked up unchanged, and a doubly-dotted name loses only
its first dot. -/
theorem describe_strips_one_leading_dot (s : String) (env : DescribeEnv)
    (rest : List String) (h : s.data.head? ≠ some '.') :
    stripDot (String.mk ('.' :: s.data)) = s ∧
    stripDot s = s ∧
    (describeEntities env (String.mk ('.' :: s.data) :: rest)).1.head? =
      some (Effect.findSymbol s) ∧
    (describeEntities env (s :: rest)).1.head? = some (Effect.findSymbol s) ∧
    stripDot (String.mk ('.' :: '.' :: s.data)) = String.mk ('.' :: s.data) := by
  have h1 : stripDot (String.mk ('.' :: s.data)) = s := by
    simp [stripDot]
  have h2 : stripDot s = s := by
    unfold stripDot
    rw [if_neg h]
  refine ⟨h1, h2, ?_, ?_, by simp [stripDot]⟩
  · rw [describeEntities_head, h1]
  · rw [describeEntities_head, h2]

/-- Witness for C8 at `.pkg.Service` / `pkg.Service`. -/
theorem describe_strips_one_leading_dot_witness :
    ("pkg.Service".data.head? ≠ some '.' ∧
     String.mk ('.' :: "pkg.Service".data) = ".pkg.Service") ∧
    (stripDot ".pkg.Service" = "pkg.Service" ∧ stripDot "pkg.Service" = "pkg.Service") := by
  refine ⟨⟨by decide, by decide⟩, ?_, ?_⟩
  · have := (describe_strips_one_leading_dot "pkg.Service"
      { dial := Except.ok (), findSymbol := fun _ => Except.error "x",
        getDescriptorText := fun _ => Except.ok "" } [] (by decide)).1
    simpa using this
  · exact (describe_strips_one_leading_dot "pkg.Service"
      { dial := Except.ok (), findSymbol := fun _ => Except.error "x",
        getDescriptorText := fun _ => Except.ok "" } [] (by decide)).2.1

/-- Claim C10: when the `method` (or `request`) argument is absent or
not a string, the invoke handler performs no argument validation: the
comma-ok assertion yields the empty string, and (headers absent) the
handler proceeds straight to the dial. -/
theorem invoke_missing_args_no_validation (env : InvokeEnv) (args : List (String × GoVal))
    (h : (∀ s, lookupArg args "method" ≠ some (GoVal.str s)) ∨
         (∀ s, lookupArg args "request" ≠ some (GoVal.str s)))
    (hh : lookupArg args "headers" = none) :
    invokeHandler env args =
      invokeWithHeaders env (strArg args "method") (strArg args "request") [] ∧
    (strArg args "method" = "" ∨ strArg args "request" = "") ∧
    (invokeHandler env args).trace.head? = some Effect.dial := by
  have hhs : strArg args "headers" = "" := by
    unfold strArg
    rw [hh]
    rfl
  have heq : invokeHandler env args =
      invokeWithHeaders env (strArg args "method") (strArg args "request") [] := by
    unfold invokeHandler
    rw [if_pos hhs]
  refine ⟨heq, ?_, ?_⟩
  · cases h with
    | inl hm => exact Or.inl (asString_eq_empty _ hm)
    | inr hr => exact Or.inr (asString_eq_empty _ hr)
  · rw [heq]
    exact invokeWithHeaders_dial_first env _ _ _

/-- Witness for C10: an invoke call whose argument map lacks `method`
entirely still dials. -/
theorem invoke_missing_args_no_validation_witness :
    ((∀ s, lookupArg [("request", GoVal.str "\x7b\x7d")] "method" ≠ some (GoVal.str s)) ∧
     lookupArg [("request", GoVal.str "\x7b\x7d")] "headers" = none) ∧
    (strArg [("request", GoVal.str "\x7b\x7d")] "method" = "" ∨
     strArg [("request", GoVal.str "\x7b\x7d")] "request" = "") ∧
    (invokeHandler
      { parseHeaders := fun _ => Except.error "unused",
        dial := Except.ok (), formatter := Except.ok (),
        responses := [], invokeErr := none, statusErr := none }
      [("request", GoVal.str "\x7b\x7d")]).trace.head? = some Effect.dial := by
  have hm : ∀ s, lookupArg [("request", GoVal.str "\x7b\x7d")] "method" ≠
      some (GoVal.str s) := by
    intro s
    simp [lookupArg, List.find?]
  have base := invoke_missing_args_no_validation
    { parseHeaders := fun _ => Except.error "unused",
      dial := Except.ok (), formatter := Except.ok (),
      responses := [], invokeErr := none, statusErr := none }
    [("request", GoVal.str "\x7b\x7d")] (Or.inl hm) rfl
  exact ⟨⟨hm, rfl⟩, base.2.1, base.2.2⟩

/-- Claim C9 (amended): malformed headers JSON is reported per call and
never reaches the network — the handler returns the parse error with an
empty effect trace; a malformed request payload, by contrast, cannot
prevent the dial, because every post-header path dials first and the
payload is only decoded by the supplier inside the RPC invocation. -/
theorem invoke_encode_errors (env : InvokeEnv) (args : List (String × GoVal)) (e : String)
    (hne : strArg args "headers" ≠ "")
    (hp : env.parseHeaders (strArg args "headers") = Except.error e) :
    invokeHandler env args =
      { trace := [],
        result := toolError ("Failed to parse headers JSON: " ++ e),
        goErr := none } ∧
    (∀ (env2 : InvokeEnv) (m r : String) (hs2 : List String),
      (invokeWithHeaders env2 m r hs2).trace.head? = some Effect.dial) := by
  constructor
  · unfold invokeHandler
    rw [if_neg hne, hp]
  · exact fun env2 m r hs2 => invokeWithHeaders_dial_first env2 m r hs2

/-- Witness for C9 (amended) at a concrete malformed headers string. -/
theorem invoke_encode_errors_witness :
    (strArg [("headers", GoVal.str "notjson")] "headers" ≠ "" ∧
     InvokeEnv.parseHeaders
       { parseHeaders := fun _ => Except.error "invalid character",
         dial := Except.ok (), formatter := Except.ok (),
         responses := [], invokeErr := none, statusErr := none }
       (strArg [("headers", GoVal.str "notjson")] "headers") =
       Except.error "invalid character") ∧
    invokeHandler
      { parseHeaders := fun _ => Except.error "invalid character",
        dial := Except.ok (), formatter := Except.ok (),
        responses := [], invokeErr := none, statusErr := none }
      [("headers", GoVal.str "notjson")] =
      { trace := [],
        result := toolError ("Failed to parse headers JSON: " ++ "invalid character"),
        goErr := none } :=
  ⟨⟨by decide, rfl⟩,
   (invoke_encode_errors
     { parseHeaders := fun _ => Except.error "invalid character",
       dial := Except.ok (), formatter := Except.ok (),
       responses := [], invokeErr := none, statusErr := none }
     [("headers", GoVal.str "notjson")] "invalid character" (by decide) rfl).1⟩

/-- Counterexample to claim C9 as stated: an invoke call whose request
payload is malformed JSON still dials the target — the payload decode
error surfaces as an RPC-invocation failure after the connection is
made, so the malformed input's call does reach the network. -/
theorem invoke_malformed_request_dials :
    (invokeHandler
      { parseHeaders := fun _ => Except.error "unused",
        dial := Except.ok (), formatter := Except.ok (),
        responses := [],
        invokeErr := some "error getting request data: invalid character",
        statusErr := none }
      [("method", GoVal.str "greet.Greeter/SayHello"),
       ("request", GoVal.str "not json")]).result =
      toolError ("Failed to invoke RPC: error getting request data: invalid character") ∧
    Effect.dial ∈ (invokeHandler
      { parseHeaders := fun _ => Except.error "unused",
        dial := Except.ok (), formatter := Except.ok (),
        responses := [],
        invokeErr := some "error getting request data: invalid character",
        statusErr := none }
      [("method", GoVal.str "greet.Greeter/SayHello"),
       ("request", GoVal.str "not json")]).trace := by
  constructor
  · decide
  · decide

/-- Claim C2 (amended): with an empty resolved entity list (and a
successful dial) the describe handler returns the error payload
`No entities provided` — but the dial has already been performed: the
effect trace is exactly `[dial]`, not empty. -/
theorem describe_empty_entities (env : DescribeEnv) (args : List (String × GoVal))
    (hd : env.dial = Except.ok ())
    (he : extractEntities args = Except.ok []) :
    describeHandler env args =
      { trace := [Effect.dial],
        result := toolError "No entities provided",
        goErr := none } := by
  unfold describeHandler
  rw [hd, he]
  rfl

/-- Witness for C2 (amended) at a concrete empty entity array. -/
theorem describe_empty_entities_witness :
    (DescribeEnv.dial
       { dial := Except.ok (), findSymbol := fun _ => Except.error "unused",
         getDescriptorText := fun _ => Except.error "unused" } = Except.ok () ∧
     extractEntities [("entities", GoVal.arr [])] = Except.ok []) ∧
    describeHandler
      { dial := Except.ok (), findSymbol := fun _ => Except.error "unused",
        getDescriptorText := fun _ => Except.error "unused" }
      [("entities", GoVal.arr [])] =
      { trace := [Effect.dial],
        result := toolError "No entities provided",
        goErr := none } :=
  ⟨⟨rfl, rfl⟩,
   describe_empty_entities
     { dial := Except.ok (), findSymbol := fun _ => Except.error "unused",
       getDescriptorText := fun _ => Except.error "unused" }
     [("entities", GoVal.arr [])] rfl rfl⟩

/-- Counterexample to claim C2 as stated: a describe call with an empty
entity list does return `No entities provided`, but it has performed
network I/O — the dial is in its effect trace. -/
theorem describe_empty_entities_dials :
    (describeHandler
      { dial := Except.ok (), findSymbol := fun _ => Except.error "unused",
        getDescriptorText := fun _ => Except.error "unused" }
      [("entities", GoVal.arr [])]).result = toolError "No entities provided" ∧
    Effect.dial ∈ (describeHandler
      { dial := Except.ok (), findSymbol := fun _ => Except.error "unused",
        getDescriptorText := fun _ => Except.error "unused" }
      [("entities", GoVal.arr [])]).trace := by
  constructor
  · decide
  · decide


/-- Claim C1 (amended): on a non-OK terminal status the invoke handler
returns the error text alone — `RPC failed: <err>` — and the rendered
responses accumulated in the output buffer are discarded, whatever the
responses were. -/
theorem invoke_status_error_returns_error_alone (env : InvokeEnv) (m r : String)
    (hs : List String) (e : String)
    (hd : env.dial = Except.ok ()) (hf : env.formatter = Except.ok ())
    (hi : env.invokeErr = none) (hst : env.statusErr = some e) :
    (invokeWithHeaders env m r hs).result = toolError ("RPC failed: " ++ e) ∧
    (invokeWithHeaders env m r hs).result.content = ["RPC failed: " ++ e] := by
  have hcall : invokeWithHeaders env m r hs =
      { trace := [Effect.dial, Effect.rpc m hs r],
        result := toolError ("RPC failed: " ++ e),
        goErr := none } := by
    unfold invokeWithHeaders
    rw [hd, hf, hi, hst]
  rw [hcall]
  exact ⟨rfl, rfl⟩

/-- Witness for C1 (amended) at the concrete three-response
environment. -/
theorem invoke_status_error_returns_error_alone_witness :
    (statusErrEnv.dial = Except.ok () ∧ statusErrEnv.formatter = Except.ok () ∧
     statusErrEnv.invokeErr = none ∧ statusErrEnv.statusErr = some "boom") ∧
    (invokeWithHeaders statusErrEnv "greet.Greeter/SayHello" "\x7b\x7d" []).result =
      toolError ("RPC failed: " ++ "boom") :=
  ⟨⟨rfl, rfl, rfl, rfl⟩,
   (invoke_status_error_returns_error_alone statusErrEnv "greet.Greeter/SayHello"
     "\x7b\x7d" [] "boom" rfl rfl rfl rfl).1⟩

/-- Counterexample to claim C1 as stated: three responses arrived before
the non-OK status, yet the returned payload is the error text alone —
it does not even contain the first rendered response. -/
theorem invoke_status_error_drops_responses :
    (invokeWithHeaders statusErrEnv "greet.Greeter/SayHello" "\x7b\x7d" []).result =
      toolError "RPC failed: boom" ∧
    statusErrEnv.responses = ["A", "B", "C"] ∧
    ¬ ∃ pre post, "RPC failed: boom" = pre ++ "A" ++ post := by
  refine ⟨by decide, rfl, ?_⟩
  rintro ⟨pre, post, hEq⟩
  have hdata := congrArg String.data hEq
  simp only [String.data_append] at hdata
  have hmem : 'A' ∈ pre.data ++ ['A'] ++ post.data :=
    List.mem_append.mpr (Or.inl (List.mem_append.mpr (Or.inr (by decide))))
  rw [← hdata] at hmem
  exact absurd hmem (by decide)


theorem strEmptyAppend (a : String) : "" ++ a = a :=
  String.ext (by simp)

/-- The list handler's builder loop renders exactly the filtered
service names, one per line. -/
theorem listOutput_eq (services : List String) :
    listOutput services =
      renderLines (services.filter (fun s => s ≠ reflectionServiceName)) := by
  have hgen : ∀ (l : List String) (acc : String),
      l.foldl
        (fun acc svc => if svc ≠ reflectionServiceName then acc ++ svc ++ "\n" else acc) acc =
      acc ++ renderLines (l.filter (fun s => s ≠ reflectionServiceName)) := by
    intro l
    induction l with
    | nil =>
      intro acc
      simp [renderLines, strAppendEmpty]
    | cons x rest ih =>
      intro acc
      simp only [List.foldl_cons]
      by_cases hx : x = reflectionServiceName
      · rw [if_neg (by simp [hx])]
        rw [ih acc]
        congr 2
        simp [List.filter_cons, hx]
      · rw [if_pos hx]
        rw [ih (acc ++ x ++ "\n")]
        have hf : (x :: rest).filter (fun s => s ≠ reflectionServiceName) =
            x :: rest.filter (fun s => s ≠ reflectionServiceName) := by
          simp [List.filter_cons, hx]
        rw [hf]
        simp [renderLines, strAppendAssoc]
  exact hgen services ""

/-- Every member of a rendered list appears in the output followed by a
newline. -/
theorem renderLines_mem_split (l : List String) (s : String) (h : s ∈ l) :
    ∃ pre post, renderLines l = pre ++ (s ++ "\n") ++ post := by
  induction l with
  | nil => cases h
  | cons x rest ih =>
    rcases List.mem_cons.mp h with h | h
    · subst h
      refine ⟨"", renderLines rest, ?_⟩
      rw [strEmptyAppend]
      simp [renderLines, strAppendAssoc]
    · obtain ⟨pre, post, hp⟩ := ih h
      refine ⟨x ++ "\n" ++ pre, post, ?_⟩
      simp [renderLines, hp, strAppendAssoc]

/-- Claim C3: when the server's listing advertises the reflection
service's own name, the list handler's output never includes it, while
every other advertised name appears followed by a newline. -/
theorem list_excludes_reflection_service (env : ListEnv) (services : List String)
    (hd : env.dial = Except.ok ()) (hl : env.listServices = Except.ok services)
    (_hin : reflectionServiceName ∈ services) :
    (listHandler env).result =
      toolSuccess [renderLines (services.filter (fun s => s ≠ reflectionServiceName))] ∧
    reflectionServiceName ∉ services.filter (fun s => s ≠ reflectionServiceName) ∧
    (∀ s ∈ services, s ≠ reflectionServiceName →
      ∃ pre post,
        renderLines (services.filter (fun s2 => s2 ≠ reflectionServiceName)) =
          pre ++ (s ++ "\n") ++ post) := by
  refine ⟨?_, ?_, ?_⟩
  · unfold listHandler
    rw [hd, hl]
    simp [listOutput_eq]
  · simp [List.mem_filter]
  · intro s hs hne
    exact renderLines_mem_split _ s (List.mem_filter.mpr ⟨hs, by simp [hne]⟩)

/-- Witness for C3: a server advertising `greet.Greeter` and the
reflection service lists only `greet.Greeter`. -/
theorem list_excludes_reflection_service_witness :
    (ListEnv.dial
       { dial := Except.ok (),
         listServices := Except.ok ["greet.Greeter", reflectionServiceName] } =
         Except.ok () ∧
     reflectionServiceName ∈ ["greet.Greeter", reflectionServiceName]) ∧
    (listHandler
       { dial := Except.ok (),
         listServices := Except.ok ["greet.Greeter", reflectionServiceName] }).result =
      toolSuccess [renderLines (["greet.Greeter", reflectionServiceName].filter
        (fun s => s ≠ reflectionServiceName))] ∧
    (listHandler
       { dial := Except.ok (),
         listServices := Except.ok ["greet.Greeter", reflectionServiceName] }).result =
      toolSuccess ["greet.Greeter\n"] := by
  have base := list_excludes_reflection_service
    { dial := Except.ok (),
      listServices := Except.ok ["greet.Greeter", reflectionServiceName] }
    ["greet.Greeter", reflectionServiceName] rfl rfl (by simp)
  refine ⟨⟨rfl, by simp⟩, base.1, ?_⟩
  rw [base.1]
  decide


/-- Every post-header invoke branch returns a nil Go error and a
well-formed envelope. -/
theorem invokeWithHeaders_wf (env : InvokeEnv) (m r : String) (hs : List String) :
    (invokeWithHeaders env m r hs).goErr = none ∧
    WellFormed (invokeWithHeaders env m r hs).result := by
  unfold invokeWithHeaders
  cases env.dial with
  | error e => exact ⟨rfl, Or.inr ⟨_, rfl⟩⟩
  | ok u =>
    cases env.formatter with
    | error e => exact ⟨rfl, Or.inr ⟨_, rfl⟩⟩
    | ok u' =>
      cases env.invokeErr with
      | some e => exact ⟨rfl, Or.inr ⟨_, rfl⟩⟩
      | none =>
        cases env.statusErr with
        | some e => exact ⟨rfl, Or.inr ⟨_, rfl⟩⟩
        | none => exact ⟨rfl, Or.inl ⟨_, rfl⟩⟩

/-- A failing describe step always fails with a `toolError` envelope. -/
theorem describeStep_error_shape (env : DescribeEnv) (e : String) (r : CallToolResult)
    (h : describeStep env e = Except.error r) : ∃ m, r = toolError m := by
  unfold describeStep at h
  split at h
  · injection h with h2
    exact ⟨_, h2.symm⟩
  · split at h
    · injection h with h2
      exact ⟨_, h2.symm⟩
    · split at h
      · injection h with h2
        exact ⟨_, h2.symm⟩
      · cases h

/-- The describe loop always produces a well-formed envelope. -/
theorem describeGo_wf (env : DescribeEnv) (l : List String)
    (tr : List Effect) (res : List String) :
    WellFormed (describeGo env l tr res).2 := by
  induction l generalizing tr res with
  | nil => exact Or.inl ⟨_, rfl⟩
  | cons e rest ih =>
    unfold describeGo
    cases hstep : describeStep env e with
    | error r =>
      obtain ⟨m, hm⟩ := describeStep_error_shape env e r hstep
      exact Or.inr ⟨m, by simp [hm]⟩
    | ok d => exact ih _ _

/-- A failing entities extraction always fails with a `toolError`
envelope. -/
theorem extractFromArr_error_shape (xs : List GoVal) (r : CallToolResult)
    (h : extractFromArr xs = Except.error r) : ∃ m, r = toolError m := by
  induction xs with
  | nil => cases h
  | cons v rest ih =>
    cases v with
    | str s =>
      unfold extractFromArr at h
      cases hrest : extractFromArr rest with
      | error r2 =>
        rw [hrest] at h
        simp only [Except.map] at h
        injection h with h2
        exact ih (h2 ▸ hrest)
      | ok l =>
        rw [hrest] at h
        simp only [Except.map] at h
        cases h
    | arr ys =>
      unfold extractFromArr at h
      injection h with h2
      exact ⟨_, h2.symm⟩
    | other =>
      unfold extractFromArr at h
      injection h with h2
      exact ⟨_, h2.symm⟩

/-- Claim C4: for every combination of argument values and downstream
failures, each of the three tool handlers returns a nil Go error and a
well-formed success or error envelope — nothing propagates past the
dispatcher boundary. -/
theorem dispatcher_never_throws (ienv : InvokeEnv) (lenv : ListEnv)
    (denv : DescribeEnv) (args : List (String × GoVal)) :
    ((invokeHandler ienv args).goErr = none ∧
      WellFormed (invokeHandler ienv args).result) ∧
    ((listHandler lenv).goErr = none ∧ WellFormed (listHandler lenv).result) ∧
    ((describeHandler denv args).goErr = none ∧
      WellFormed (describeHandler denv args).result) := by
  refine ⟨?_, ?_, ?_⟩
  · unfold invokeHandler
    by_cases hh : strArg args "headers" = ""
    · rw [if_pos hh]
      exact invokeWithHeaders_wf ienv _ _ _
    · rw [if_neg hh]
      cases hp : ienv.parseHeaders (strArg args "headers") with
      | error e => exact ⟨rfl, Or.inr ⟨_, rfl⟩⟩
      | ok pairs => exact invokeWithHeaders_wf ienv _ _ _
  · unfold listHandler
    cases lenv.dial with
    | error e => exact ⟨rfl, Or.inr ⟨_, rfl⟩⟩
    | ok u =>
      cases lenv.listServices with
      | error e => exact ⟨rfl, Or.inr ⟨_, rfl⟩⟩
      | ok services => exact ⟨rfl, Or.inl ⟨_, rfl⟩⟩
  · unfold describeHandler
    cases denv.dial with
    | error e => exact ⟨rfl, Or.inr ⟨_, rfl⟩⟩
    | ok u =>
      cases hx : extractEntities args with
      | error r =>
        unfold extractEntities at hx
        cases hl : lookupArg args "entities" with
        | none => rw [hl] at hx; cases hx
        | some v =>
          rw [hl] at hx
          cases v with
          | str s => cases hx
          | arr xs =>
            obtain ⟨m, hm⟩ := extractFromArr_error_shape xs r hx
            exact ⟨rfl, Or.inr ⟨m, by simp [hm]⟩⟩
          | other => cases hx
      | ok tmp =>
        by_cases ht : tmp = []
        · subst ht
          exact ⟨rfl, Or.inr ⟨_, rfl⟩⟩
        · obtain ⟨y, ys, rfl⟩ := List.exists_cons_of_ne_nil ht
          exact ⟨rfl, describeGo_wf denv (y :: ys) [] []⟩

/-- Claim C6: in a describe call, entities before a resolution failure
are processed, the failing entity's resolve error is the returned
payload (naming that entity alone), and no entity after the failing one
is ever looked up: the lookup trace ends at the failing entity. -/
theorem describe_aborts_on_first_failure (env : DescribeEnv)
    (pre : List String) (e : String) (post : List String) (err : String)
    (hpre : ∀ x ∈ pre, ∃ d, describeStep env x = Except.ok d)
    (hfail : env.findSymbol (stripDot e) = Except.error err) :
    describeEntities env (pre ++ e :: post) =
      (pre.map (fun x => Effect.findSymbol (stripDot x)) ++
         [Effect.findSymbol (stripDot e)],
       toolError ("Failed to resolve symbol \"" ++ stripDot e ++ "\": " ++ err)) := by
  have hstep : describeStep env e =
      Except.error
        (toolError ("Failed to resolve symbol \"" ++ stripDot e ++ "\": " ++ err)) := by
    unfold describeStep
    rw [hfail]
  have hgen : ∀ (p : List String) (tr : List Effect) (res : List String),
      (∀ x ∈ p, ∃ d, describeStep env x = Except.ok d) →
      describeGo env (p ++ e :: post) tr res =
        (tr ++ p.map (fun x => Effect.findSymbol (stripDot x)) ++
           [Effect.findSymbol (stripDot e)],
         toolError ("Failed to resolve symbol \"" ++ stripDot e ++ "\": " ++ err)) := by
    intro p
    induction p with
    | nil =>
      intro tr res _
      rw [List.nil_append]
      unfold describeGo
      rw [hstep]
      simp
    | cons x p ih =>
      intro tr res hp
      obtain ⟨d, hd⟩ := hp x (List.mem_cons_self x p)
      have hx2 : describeGo env ((x :: p) ++ e :: post) tr res =
          describeGo env (p ++ e :: post)
            (tr ++ [Effect.findSymbol (stripDot x)]) (res ++ [d]) := by
        rw [List.cons_append]
        show (match describeStep env x with
          | Except.error r => (tr ++ [Effect.findSymbol (stripDot x)], r)
          | Except.ok description =>
            describeGo env (p ++ e :: post)
              (tr ++ [Effect.findSymbol (stripDot x)]) (res ++ [description])) = _
        rw [hd]
      rw [hx2, ih _ _ (fun y hy => hp y (List.mem_cons_of_mem x hy))]
      simp
  have := hgen pre [] [] hpre
  unfold describeEntities
  rw [this]
  simp


/-- Witness for C6: the batch `["a.A", "bad.B", "c.C"]` aborts at
`bad.B`; the lookup trace ends there and `c.C` is never resolved. -/
theorem describe_aborts_on_first_failure_witness :
    ((∀ x ∈ ["a.A"], ∃ d, describeStep c6Env x = Except.ok d) ∧
     c6Env.findSymbol (stripDot "bad.B") = Except.error "Symbol not found") ∧
    describeEntities c6Env (["a.A"] ++ "bad.B" :: ["c.C"]) =
      (["a.A"].map (fun x => Effect.findSymbol (stripDot x)) ++
         [Effect.findSymbol (stripDot "bad.B")],
       toolError ("Failed to resolve symbol \"" ++ stripDot "bad.B" ++
         "\": " ++ "Symbol not found")) := by
  have hpre : ∀ x ∈ ["a.A"], ∃ d, describeStep c6Env x = Except.ok d := by
    intro x hx
    have hx2 : x = "a.A" := by simpa using hx
    subst hx2
    exact ⟨"a.A is a service:\nservice A \x7b\x7d", rfl⟩
  refine ⟨⟨hpre, rfl⟩, ?_⟩
  exact describe_aborts_on_first_failure c6Env ["a.A"] "bad.B" ["c.C"]
    "Symbol not found" hpre rfl

end GrpcurlMcp
